import Mathlib

/-!
Verification of the EchosAnvil playback/radio engine.

This file gives a shallow embedding of the `MusicQueue` class
(`src/unnamed/part_003`, the current version of `musicQueue.js`) together
with the older weighted-selection variant (`src/src/musicQueue.js`), and
proves properties of the selection, retry, crossfade and history logic.

Modelling conventions:
- The session state is the record `MusicQueue` holding the fields the
  verified operations read or write.  External resources (audio player,
  voice connection, Discord messages) are kept abstract: message sends are
  recorded as a list of notice strings, and control-flow decisions that in
  the source invoke a collaborator are returned as explicit action values.
- `Math.random()` draws are passed in as rationals in `[0,1)`.
- JavaScript float expressions such as `songs.length * 0.2` are modelled
  by exact rationals; for the integer ranges reachable here (pool sizes
  capped at 100) double rounding never changes the comparisons or floors
  involved, so the exact model agrees with the source.
- `Math.ceil(Math.log2 (n + 1))` is modelled by an exact ceiling base-2
  logarithm (`ceilLog2`), which agrees with the float computation on the
  integer inputs that occur.
-/

namespace EchosAnvil

/-- `requestedBy` field of a song: a real user, or the sentinel ids
`radio` / `discovery`. -/
structure Requester where
  id : String
  name : String
deriving DecidableEq, Repr

/-- A track as stored on the explicit queue (`addSong` / `playSong`). -/
structure Song where
  url : String
  title : String
  artist : String
  requestedBy : Requester
deriving DecidableEq, Repr

/-- A row returned by `getMultipleUsersSongs`: the per-candidate aggregate
the radio selector consumes. -/
structure Candidate where
  song_url : String
  song_title : String
  song_artist : String
  user_count : Nat
  total_requests : Nat
deriving DecidableEq, Repr

/-- `this.maxRetries = 3` (constructor). -/
def maxRetries : Nat := 3

/-- `this.maxBotMessages = 10` (constructor). -/
def maxBotMessages : Nat := 10

/-- The `MusicQueue` session state (the fields the verified operations
touch).  `failedUrls` and `activeUsers` are JS `Set`s, modelled as lists
with membership semantics. -/
structure MusicQueue where
  queue : List Song
  currentSong : Option Song
  isPlaying : Bool
  radioMode : Bool
  discoveryMode : Bool
  recentlyPlayed : List String
  recentArtists : List String
  botMessages : List Nat
  retryCount : Nat
  failedUrls : List String
  currentVolume : ℚ
deriving DecidableEq, Repr

/-- The constructor's initial field values. -/
def MusicQueue.initial : MusicQueue where
  queue := []
  currentSong := none
  isPlaying := false
  radioMode := false
  discoveryMode := false
  recentlyPlayed := []
  recentArtists := []
  botMessages := []
  retryCount := 0
  failedUrls := []
  currentVolume := 1

/-- What the player-error handler decides to do next:
retry the current song after a backoff, or move on via `playNext`. -/
inductive ErrorAction where
  | retry (song : Song) (backoffMs : Nat)
  | skipNext
deriving DecidableEq, Repr

/-- The `player.on('error', ...)` handler of `setupPlayerEvents`
(`src/unnamed/part_003` lines 95-137).  It sets `isPlaying = false`,
resets the volume, and either schedules a retry of `currentSong` with
exponential backoff (when `retryCount < maxRetries` and the url is not
blacklisted) or blacklists the url when retries are exhausted, resets
`retryCount` and falls through to `playNext`. -/
def onPlayerError (s : MusicQueue) : MusicQueue × ErrorAction :=
  let s := { s with isPlaying := false, currentVolume := 1 }
  match s.currentSong with
  | some song =>
      if s.retryCount < maxRetries ∧ song.url ∉ s.failedUrls then
        let rc := s.retryCount + 1
        ({ s with retryCount := rc },
         ErrorAction.retry song (min (1000 * 2 ^ (rc - 1)) 5000))
      else
        let s :=
          if maxRetries ≤ s.retryCount then
            { s with failedUrls := song.url :: s.failedUrls }
          else s
        ({ s with retryCount := 0 }, ErrorAction.skipNext)
  | none => ({ s with retryCount := 0 }, ErrorAction.skipNext)

/-- One failure round: the error handler fires, and if it decided to
retry, the scheduled `playSong(this.currentSong)` runs again (which keeps
`currentSong` and sets `isPlaying`), after which the next failure can be
observed.  Used to iterate consecutive playback failures of one track. -/
def failStep (s : MusicQueue) : MusicQueue × ErrorAction :=
  let r := onPlayerError s
  match r.2 with
  | ErrorAction.retry song _ =>
      ({ r.1 with currentSong := some song, isPlaying := true }, r.2)
  | ErrorAction.skipNext => r

/-- What `playNext` (`src/unnamed/part_003` lines 872-900) does after the
optional fade-out: play the popped queue head, hand over to the discovery
or radio selector, or send the queue-empty notice. -/
inductive NextAction where
  | play (song : Song)
  | discovery
  | radio
  | idleNotice
deriving DecidableEq, Repr

/-- `playNext`: pop the explicit queue and play its head if non-empty;
otherwise, in radio mode, pick discovery with probability 0.3 when
`discoveryMode` is on (draw `rDiscovery`), else radio; otherwise go idle
with one queue-empty notice.  The fade-out only touches the volume ramp
and the audio player, so it is not part of this state transition. -/
def playNext (s : MusicQueue) (rDiscovery : ℚ) : MusicQueue × NextAction :=
  match s.queue with
  | song :: rest =>
      ({ s with queue := rest, currentSong := some song, isPlaying := true },
       NextAction.play song)
  | [] =>
      if s.radioMode then
        if s.discoveryMode ∧ rDiscovery < 3/10 then (s, NextAction.discovery)
        else (s, NextAction.radio)
      else ({ s with currentSong := none }, NextAction.idleNotice)

/-- Result of `setRadioMode`: whether `playRadioSong()` was invoked. -/
inductive RadioToggleAction where
  | startRadioSelection
  | idle
deriving DecidableEq, Repr

/-- `setRadioMode(enabled)` (`src/unnamed/part_003` lines 1183-1188):
sets the flag and, when enabling while not playing, calls
`playRadioSong()` directly. -/
def setRadioMode (s : MusicQueue) (enabled : Bool) : MusicQueue × RadioToggleAction :=
  let s := { s with radioMode := enabled }
  if enabled ∧ ¬ s.isPlaying then (s, RadioToggleAction.startRadioSelection)
  else (s, RadioToggleAction.idle)

/-- The queue insertion performed by `addSong` (lines 437-441 and the
parallel branches): `unshift` when `priority`, else `push`. -/
def enqueue (s : MusicQueue) (song : Song) (priority : Bool) : MusicQueue :=
  if priority then { s with queue := song :: s.queue }
  else { s with queue := s.queue ++ [song] }

/-- `trackBotMessage` (lines 148-160): push the message, and if the list
now exceeds `maxBotMessages`, shift off (and delete) the oldest. -/
def trackBotMessage (s : MusicQueue) (m : Nat) : MusicQueue :=
  let bm := s.botMessages ++ [m]
  if maxBotMessages < bm.length then { s with botMessages := bm.tail }
  else { s with botMessages := bm }

/-- `fadeSteps = 20` in `fadeOutAndSkip` and `fadeIn`. -/
def fadeSteps : Nat := 20

/-- The successive volume values applied by `fadeOutAndSkip`
(lines 174-202): at step `currentStep = i + 1` the volume is
`Math.max(0, 1 - currentStep / fadeSteps)`. -/
def fadeOutVolumes : List ℚ :=
  (List.range fadeSteps).map (fun i => max 0 (1 - ((i : ℚ) + 1) / (fadeSteps : ℚ)))

/-- The successive volume values applied by `fadeIn` (lines 204-235):
at step `currentStep = i + 1` the volume is
`Math.min(1, currentStep / fadeSteps)`. -/
def fadeInVolumes : List ℚ :=
  (List.range fadeSteps).map (fun i => min 1 (((i : ℚ) + 1) / (fadeSteps : ℚ)))

/-- The search query built by `playDiscoverySong` (lines 1093-1107) from
the seed song, given the strategy draw `r = Math.random()`.  A falsy
(empty) or `Unknown` artist always yields the title form; otherwise the
thresholds are 0.4 and 0.7. -/
def discoverySearchQuery (artist title : String) (r : ℚ) : String :=
  if artist ≠ "" ∧ artist ≠ "Unknown" then
    if r < 4/10 then artist ++ " similar songs"
    else if r < 7/10 then artist ++ " best songs"
    else "songs like " ++ title
  else "songs like " ++ title

/-- Modelled from the spec: the query-strategy choice as §4.2 step 3
describes it, "chosen uniformly among" the three forms, i.e. thirds of
the unit draw; the title form whenever the artist is Unknown. -/
def discoverySearchQueryUniformSpec (artist title : String) (r : ℚ) : String :=
  if artist ≠ "Unknown" then
    if r < 1/3 then artist ++ " similar songs"
    else if r < 2/3 then artist ++ " best songs"
    else "songs like " ++ title
  else "songs like " ++ title

/-- Auxiliary ceiling base-2 logarithm by repeated ceiling halving; the
first argument is fuel making the recursion structural (the value halves
each step, so fuel `n` always suffices for input `n`). -/
def clog2Aux : Nat → Nat → Nat
  | 0, _ => 0
  | fuel + 1, n => if n ≤ 1 then 0 else clog2Aux fuel ((n + 1) / 2) + 1

/-- Exact `Math.ceil(Math.log2 n)` for positive integers `n`
(and `0` at `n = 0`). -/
def ceilLog2 (n : Nat) : Nat := clog2Aux n n

/-- The per-candidate weight of the weighted selection branch
(`src/unnamed/part_003` lines 1001-1006):
`Math.max(1, Math.min(ceil(log2(user_count+1)) + ceil(log2(total_requests+1)), 5))`. -/
def songWeight (c : Candidate) : Nat :=
  max 1 (min (ceilLog2 (c.user_count + 1) + ceilLog2 (c.total_requests + 1)) 5)

/-- The `cumulativeWeights` array built by the loop at lines 1009-1014:
running totals of the weight list. -/
def cumSums : List Nat → List Nat
  | [] => []
  | w :: ws => w :: (cumSums ws).map (fun t => w + t)

/-- The binary-search loop of lines 1018-1028: find the first index whose
cumulative weight is `≥ random`.  The first argument is fuel making the
loop structural; the interval shrinks every iteration, so fuel
`cum.length` always suffices for the initial interval. -/
def bsLoop (cum : List Nat) (x : ℚ) : Nat → Nat → Nat → Nat
  | 0, left, _ => left
  | fuel + 1, left, right =>
    if left < right then
      let mid := (left + right) / 2
      if ((cum.getD mid 0 : Nat) : ℚ) < x then bsLoop cum x fuel (mid + 1) right
      else bsLoop cum x fuel left mid
    else left

/-- The optimised weighted selection of the newer `playRadioSong`
(lines 999-1032): cumulative weights plus binary search on
`random = r * totalWeight`. -/
def selectWeightedNew (pool : List Candidate) (r : ℚ) : Option Candidate :=
  let weights := pool.map songWeight
  let cum := cumSums weights
  let totalWeight := weights.sum
  let x := r * (totalWeight : ℚ)
  pool.get? (bsLoop cum x cum.length 0 (cum.length - 1))

/-- The linear weighted selection of the older `playRadioSong`
(`src/src/musicQueue.js` lines 918-928): `flatMap` each candidate into
`weight` copies and index uniformly into the expanded array. -/
def selectWeightedOld (pool : List Candidate) (r : ℚ) : Option Candidate :=
  let weightedSongs := pool.flatMap (fun c => List.replicate (songWeight c) c)
  weightedSongs.get? (Int.toNat ⌊r * (weightedSongs.length : ℚ)⌋)

/-- The song filter of line 934: keep candidates whose url is not in the
recent-history list. -/
def filterNotRecent (songs : List Candidate) (recent : List String) : List Candidate :=
  songs.filter (fun song => ¬ recent.contains song.song_url)

/-- The artist-filter gate of lines 938-957: only filter by artist when at
least `max(songs.length * 0.2, 10)` songs survived the url filter, and
only keep the artist filter when it retains at least 30% of those;
artist `Unknown` is exempt from the filter. -/
def artistGate (songs availableSongs : List Candidate) (recentArtists : List String) :
    List Candidate :=
  if ((availableSongs.length : ℚ)) ≥ max ((songs.length : ℚ) * (2/10)) 10 then
    let artistFiltered := availableSongs.filter
      (fun song => ¬ recentArtists.contains song.song_artist ∨ song.song_artist = "Unknown")
    if ((artistFiltered.length : ℚ)) ≥ (availableSongs.length : ℚ) * (3/10) then artistFiltered
    else availableSongs
  else availableSongs

/-- The smart history management of lines 960-988: when the filtered pool
is empty, trim the song history to its most recent `max(3, 20%)` entries
and the artist history to its last 2, re-filter by song history only, and
if still empty clear both histories and use the whole pool.  Returns the
updated state, the pool to select from, and the `justCleared` flag. -/
def trimIfEmpty (s : MusicQueue) (songs diverseSongs : List Candidate) :
    MusicQueue × List Candidate × Bool :=
  if diverseSongs.length = 0 then
    let keepRecent := max 3 (s.recentlyPlayed.length * 2 / 10)
    let rp := s.recentlyPlayed.drop (s.recentlyPlayed.length - keepRecent)
    let ra := s.recentArtists.drop (s.recentArtists.length - 2)
    let availableSongs := filterNotRecent songs rp
    if availableSongs.length = 0 then
      ({ s with recentlyPlayed := [], recentArtists := [] }, songs, true)
    else
      ({ s with recentlyPlayed := rp, recentArtists := ra }, availableSongs, true)
  else (s, diverseSongs, false)

/-- The selection step of lines 990-1032: after a trim/clear, or when the
pool dropped below half the library, a draw `rBranch < 0.5` picks
uniformly (index `floor(rPick * length)`); otherwise the weighted
cumulative binary search runs on `rPick`. -/
def pickSong (pool : List Candidate) (librarySize : Nat) (justCleared : Bool)
    (rBranch rPick : ℚ) : Option Candidate :=
  let useUniformRandom := justCleared ∨ ((pool.length : ℚ) < (librarySize : ℚ) * (5/10))
  if useUniformRandom ∧ rBranch < 1/2 then
    pool.get? (Int.toNat ⌊rPick * (pool.length : ℚ)⌋)
  else selectWeightedNew pool rPick

/-- Push onto a bounded history list: `push` followed by the
`while (length > cap) shift()` loops of lines 1042-1053. -/
def pushTrim (l : List String) (x : String) (cap : Nat) : List String :=
  let l2 := l ++ [x]
  l2.drop (l2.length - cap)

/-- The body of `playRadioSong` from the point the candidate list `songs`
is known to be non-empty (lines 924-1057): adaptive caps, url filter,
gated artist filter, trim/clear fallback, uniform-or-weighted pick, and
the history pushes (the artist push only for a truthy, non-Unknown
artist).  Returns the updated state, the `justCleared` flag and the
chosen candidate. -/
def radioSelect (s : MusicQueue) (songs : List Candidate) (rBranch rPick : ℚ) :
    MusicQueue × Bool × Option Candidate :=
  let maxHistorySize := min (songs.length * 6 / 10) 50
  let maxArtistHistory := min (songs.length * 15 / 100) 10
  let availableSongs := filterNotRecent songs s.recentlyPlayed
  let diverseSongs := artistGate songs availableSongs s.recentArtists
  let t := trimIfEmpty s songs diverseSongs
  match pickSong t.2.1 songs.length t.2.2 rBranch rPick with
  | none => (t.1, t.2.2, none)
  | some c =>
      ({ t.1 with
          recentlyPlayed := pushTrim t.1.recentlyPlayed c.song_url maxHistorySize,
          recentArtists :=
            if c.song_artist ≠ "" ∧ c.song_artist ≠ "Unknown" then
              pushTrim t.1.recentArtists c.song_artist maxArtistHistory
            else t.1.recentArtists },
       t.2.2, some c)

/-- The entry of `playRadioSong` (lines 902-922): with no active users,
send one pause notice and return; with an empty candidate pool, send one
empty-pool notice, disable radio mode and return; otherwise run the
selection.  The returned list holds the notices sent to the text channel
during this call. -/
def playRadioSong (s : MusicQueue) (userIds : List String) (songs : List Candidate)
    (rBranch rPick : ℚ) : MusicQueue × List String × Option Candidate :=
  if userIds.isEmpty then
    (s, ["No users in voice channel. Radio mode paused."], none)
  else if songs.isEmpty then
    ({ s with radioMode := false },
     ["No songs in radio database yet! Request some songs first with /play"], none)
  else
    let r := radioSelect s songs rBranch rPick
    (r.1, [], r.2.2)


/-- A concrete queued track used by several concrete checks. -/
def tSong : Song := ⟨"t", "T", "ArtT", ⟨"u1", "User"⟩⟩

/-- An idle session with one track waiting on the explicit queue. -/
def sIdleQueued : MusicQueue := { MusicQueue.initial with queue := [tSong] }

/-- The always-failing track of the retry scenarios. -/
def songX : Song := ⟨"x", "X", "ArtX", ⟨"u1", "User"⟩⟩

/-- A session currently attempting `songX` with a fresh retry counter. -/
def sAttemptX : MusicQueue :=
  { MusicQueue.initial with currentSong := some songX, isPlaying := true }

/-- A session whose blacklist already contains the url of `songX`, with `songX`
re-enqueued on the explicit queue. -/
def sBlacklistedX : MusicQueue :=
  { MusicQueue.initial with failedUrls := ["x"], queue := [songX] }

/-- A session already tracking `maxBotMessages` bot messages. -/
def sTenMessages : MusicQueue :=
  { MusicQueue.initial with botMessages := [0, 1, 2, 3, 4, 5, 6, 7, 8, 9] }

/-- First candidate of the boundary-draw pool (weight 2). -/
def candU1a : Candidate := ⟨"a", "A", "ArtA", 1, 1⟩

/-- Second candidate of the boundary-draw pool (weight 2). -/
def candU1b : Candidate := ⟨"b", "B", "ArtB", 1, 1⟩

/-- Candidate a of the basic radio-rotation scenario (userCount 3, totalRequests 10). -/
def candA310 : Candidate := ⟨"a", "A", "ArtA", 3, 10⟩

/-- Candidate b of the basic radio-rotation scenario (userCount 1, totalRequests 1). -/
def candB11 : Candidate := ⟨"b", "B", "ArtB", 1, 1⟩

/-- First of seven Unknown-artist candidates of the stale-artist-history pool. -/
def candUnknown1 : Candidate := ⟨"u1", "T1", "Unknown", 1, 1⟩

/-- A pool of seven candidates whose artists are all Unknown. -/
def c6pool : List Candidate :=
  [candUnknown1, ⟨"u2", "T2", "Unknown", 1, 1⟩, ⟨"u3", "T3", "Unknown", 1, 1⟩,
   ⟨"u4", "T4", "Unknown", 1, 1⟩, ⟨"u5", "T5", "Unknown", 1, 1⟩,
   ⟨"u6", "T6", "Unknown", 1, 1⟩, ⟨"u7", "T7", "Unknown", 1, 1⟩]

/-- A session whose artist history holds two entries, exceeding the artist cap
that a pool of seven candidates induces. -/
def sStaleArtists : MusicQueue := { MusicQueue.initial with recentArtists := ["X", "Y"] }

set_option maxHeartbeats 2000000 in
/-- C8: the 20 gain values of a fade-out are strictly decreasing, end at exactly 0,
and stay within the unit interval; the 20 gain values of a fade-in are strictly
increasing, end at exactly 1, and stay within the unit interval. -/
theorem fade_ramps_spec :
    fadeOutVolumes.length = 20 ∧
    List.Chain' (fun a b => a > b) fadeOutVolumes ∧
    fadeOutVolumes.getLast? = some 0 ∧
    List.Forall (fun v => 0 ≤ v ∧ v ≤ 1) fadeOutVolumes ∧
    fadeInVolumes.length = 20 ∧
    List.Chain' (fun a b => a < b) fadeInVolumes ∧
    fadeInVolumes.getLast? = some 1 ∧
    List.Forall (fun v => 0 ≤ v ∧ v ≤ 1) fadeInVolumes := by
  refine ⟨?_, ?_, ?_, ?_, ?_, ?_, ?_, ?_⟩ <;>
    norm_num [fadeOutVolumes, fadeInVolumes, fadeSteps, List.range_succ, max_def, min_def]

/-- C3 (amended): the discovery search-query strategy picks the similar-songs form
for draws below 0.4, the best-songs form on draws in 0.4 to 0.7 and the title form
above, i.e. with probabilities 0.4 / 0.3 / 0.3 rather than uniform thirds; a falsy
or Unknown artist always yields the title form. -/
theorem discovery_strategy_distribution (artist title : String) (r : ℚ) :
    ((artist ≠ "" ∧ artist ≠ "Unknown") →
      ((r < 4/10 → discoverySearchQuery artist title r = artist ++ " similar songs") ∧
       (4/10 ≤ r → r < 7/10 → discoverySearchQuery artist title r = artist ++ " best songs") ∧
       (7/10 ≤ r → discoverySearchQuery artist title r = "songs like " ++ title))) ∧
    (¬ (artist ≠ "" ∧ artist ≠ "Unknown") →
      discoverySearchQuery artist title r = "songs like " ++ title) := by
  unfold discoverySearchQuery
  constructor
  · intro h
    refine ⟨?_, ?_, ?_⟩
    · intro hr; rw [if_pos h, if_pos hr]
    · intro hr1 hr2; rw [if_pos h, if_neg (not_lt.2 hr1), if_pos hr2]
    · intro hr
      rw [if_pos h, if_neg (not_lt.2 (le_trans (by norm_num) hr)), if_neg (not_lt.2 hr)]
  · intro h; rw [if_neg h]

/-- Witness for C3 at the concrete draw one half. -/
theorem discovery_strategy_distribution_witness :
    discoverySearchQuery "A" "T" (1/2) = "A best songs" :=
  ((discovery_strategy_distribution "A" "T" (1/2)).1 (by decide)).2.1 (by norm_num) (by norm_num)

/-- C3 counterexample: at draw 0.35 the code picks the similar-songs form while a
uniform-thirds choice would pick the best-songs form, so the choice is not uniform. -/
theorem discovery_strategy_not_uniform :
    discoverySearchQuery "A" "T" (35/100) = "A similar songs" ∧
    discoverySearchQueryUniformSpec "A" "T" (35/100) = "A best songs" ∧
    "A similar songs" ≠ "A best songs" := by
  refine ⟨?_, ?_, by decide⟩ <;>
    · norm_num [discoverySearchQuery, discoverySearchQueryUniformSpec]
      decide



/-- C2 counterexample: enabling radio on an idle session whose explicit queue holds
a track invokes the radio selector directly and leaves the queue untouched, whereas
the advance transition on the same state would pop and play the queued track. -/
theorem setRadioMode_bypasses_queue :
    (setRadioMode sIdleQueued true).2 = RadioToggleAction.startRadioSelection ∧
    (setRadioMode sIdleQueued true).1.queue = [tSong] ∧
    (playNext { sIdleQueued with radioMode := true } 0).2 = NextAction.play tSong := by
  refine ⟨?_, ?_, ?_⟩ <;> rfl

/-- C2 (amended): setRadioMode true sets the flag and, when the session is not
playing, invokes playRadioSong directly, bypassing the explicit queue; when playing,
or when disabling, only the flag changes. -/
theorem setRadioMode_spec (s : MusicQueue) :
    (s.isPlaying = false →
      setRadioMode s true = ({ s with radioMode := true }, RadioToggleAction.startRadioSelection)) ∧
    (s.isPlaying = true →
      setRadioMode s true = ({ s with radioMode := true }, RadioToggleAction.idle)) ∧
    setRadioMode s false = ({ s with radioMode := false }, RadioToggleAction.idle) := by
  unfold setRadioMode
  refine ⟨fun h => by simp [h], fun h => by simp [h], by simp⟩

/-- Witness for C2 on the concrete idle queued session. -/
theorem setRadioMode_spec_witness :
    setRadioMode sIdleQueued true =
      ({ sIdleQueued with radioMode := true }, RadioToggleAction.startRadioSelection) :=
  (setRadioMode_spec sIdleQueued).1 rfl

/-- Once a url is in `failedUrls`, the error handler never schedules a retry for it. -/
theorem onPlayerError_blacklisted (t : MusicQueue) (X : Song)
    (hcur : t.currentSong = some X) (hmem : X.url ∈ t.failedUrls) :
    (onPlayerError t).2 = ErrorAction.skipNext := by
  unfold onPlayerError
  simp [hcur, hmem]

/-- A failure round with retries left and a non-blacklisted url increments the retry
counter and schedules a retry with exponential backoff. -/
theorem failStep_retry (s : MusicQueue) (X : Song)
    (hcur : s.currentSong = some X) (hrc : s.retryCount < maxRetries)
    (hnf : X.url ∉ s.failedUrls) :
    failStep s =
      ({ s with isPlaying := true, currentVolume := 1, currentSong := some X,
                retryCount := s.retryCount + 1 },
       ErrorAction.retry X (min (1000 * 2 ^ s.retryCount) 5000)) := by
  unfold failStep onPlayerError
  simp [hcur, hrc, hnf]

/-- A failure round with retries exhausted blacklists the url, resets the counter
and falls through to playNext. -/
theorem failStep_abandon (s : MusicQueue) (X : Song)
    (hcur : s.currentSong = some X) (hrc : maxRetries ≤ s.retryCount) :
    failStep s =
      ({ s with isPlaying := false, currentVolume := 1, retryCount := 0,
                failedUrls := X.url :: s.failedUrls },
       ErrorAction.skipNext) := by
  unfold failStep onPlayerError
  simp [hcur, Nat.not_lt.mpr hrc, hrc]

/-- C1 (amended): from a fresh track, consecutive playback failures produce exactly
three retries with backoffs 1000, 2000 and 4000 ms, after which the url joins
`failedUrls` and the retry counter resets; thereafter the error handler never
retries that url again.  (A re-enqueued blacklisted track is still attempted once,
see the counterexample.) -/
theorem retry_ceiling_blacklist (s : MusicQueue) (X : Song)
    (hcur : s.currentSong = some X) (hrc : s.retryCount = 0)
    (hnf : X.url ∉ s.failedUrls) :
    (failStep s).2 = ErrorAction.retry X 1000 ∧
    (failStep (failStep s).1).2 = ErrorAction.retry X 2000 ∧
    (failStep (failStep (failStep s).1).1).2 = ErrorAction.retry X 4000 ∧
    (failStep (failStep (failStep (failStep s).1).1).1).2 = ErrorAction.skipNext ∧
    X.url ∈ (failStep (failStep (failStep (failStep s).1).1).1).1.failedUrls ∧
    (failStep (failStep (failStep (failStep s).1).1).1).1.retryCount = 0 ∧
    (∀ t : MusicQueue, t.currentSong = some X → X.url ∈ t.failedUrls →
      (onPlayerError t).2 = ErrorAction.skipNext) := by
  have e1 := failStep_retry s X hcur (by rw [hrc]; decide) hnf
  rw [hrc] at e1
  norm_num at e1
  have f1cur : (failStep s).1.currentSong = some X := by rw [e1]
  have f1rc : (failStep s).1.retryCount = 1 := by rw [e1]
  have f1fu : (failStep s).1.failedUrls = s.failedUrls := by rw [e1]
  have e2 := failStep_retry (failStep s).1 X f1cur (by rw [f1rc]; decide)
    (by rw [f1fu]; exact hnf)
  rw [f1rc] at e2
  norm_num at e2
  have f2cur : (failStep (failStep s).1).1.currentSong = some X := by rw [e2]
  have f2rc : (failStep (failStep s).1).1.retryCount = 2 := by rw [e2]
  have f2fu : (failStep (failStep s).1).1.failedUrls = s.failedUrls := by rw [e2, f1fu]
  have e3 := failStep_retry (failStep (failStep s).1).1 X f2cur (by rw [f2rc]; decide)
    (by rw [f2fu]; exact hnf)
  rw [f2rc] at e3
  norm_num at e3
  have f3cur : (failStep (failStep (failStep s).1).1).1.currentSong = some X := by rw [e3]
  have f3rc : (failStep (failStep (failStep s).1).1).1.retryCount = 3 := by rw [e3]
  have e4 := failStep_abandon (failStep (failStep (failStep s).1).1).1 X f3cur
    (by rw [f3rc]; decide)
  refine ⟨by rw [e1], by rw [e2], by rw [e3], by rw [e4], ?_, by rw [e4], ?_⟩
  · rw [e4]
    exact List.mem_cons_self _ _
  · intro t ht hmem
    exact onPlayerError_blacklisted t X ht hmem



/-- Witness for C1 on a concrete always-failing track. -/
theorem retry_ceiling_blacklist_witness :
    (failStep sAttemptX).2 = ErrorAction.retry songX 1000 ∧
    (failStep (failStep (failStep (failStep sAttemptX).1).1).1).2 = ErrorAction.skipNext ∧
    songX.url ∈ (failStep (failStep (failStep (failStep sAttemptX).1).1).1).1.failedUrls := by
  have h := retry_ceiling_blacklist sAttemptX songX rfl rfl (by decide)
  exact ⟨h.1, h.2.2.2.1, h.2.2.2.2.1⟩


/-- C1 counterexample: with the url of `songX` already blacklisted, re-enqueueing
`songX` and advancing attempts to play it again - `playNext` and `playSong` never
consult `failedUrls`, so a blacklisted track is not 'never attempted again'. -/
theorem blacklisted_url_reattempted :
    songX.url ∈ sBlacklistedX.failedUrls ∧
    (playNext sBlacklistedX 0).2 = NextAction.play songX ∧
    (playNext sBlacklistedX 0).1.currentSong = some songX := by
  exact ⟨by decide, rfl, rfl⟩

/-- The bot-message bound is preserved by any sequence of trackBotMessage calls. -/
theorem trackBotMessage_fold_bound : ∀ (ms : List Nat) (s : MusicQueue),
    s.botMessages.length ≤ maxBotMessages →
    ((ms.foldl trackBotMessage s).botMessages).length ≤ maxBotMessages := by
  intro ms
  induction ms with
  | nil => intro s h; simpa using h
  | cons m ms ih =>
      intro s h
      rw [List.foldl_cons]
      apply ih
      simp only [trackBotMessage]
      split
      · next hgt => simp at hgt ⊢; omega
      · next hle => simp at hle ⊢; omega

/-- C10: the tracked bot-message list is a bounded circular buffer: from the initial
state every sequence of trackBotMessage calls keeps the length at most 10, and a
call on a full buffer drops the oldest entry while appending the new one. -/
theorem bot_messages_circular_buffer :
    (∀ ms : List Nat,
      ((ms.foldl trackBotMessage MusicQueue.initial).botMessages).length ≤ maxBotMessages) ∧
    (∀ (s : MusicQueue) (m : Nat), s.botMessages.length = maxBotMessages →
      (trackBotMessage s m).botMessages = s.botMessages.tail ++ [m]) := by
  constructor
  · intro ms
    exact trackBotMessage_fold_bound ms MusicQueue.initial
      (by simp [MusicQueue.initial, maxBotMessages])
  · intro s m h
    unfold trackBotMessage
    rw [if_pos (by simp [h])]
    have hne : s.botMessages ≠ [] := by
      intro hh
      rw [hh] at h
      simp [maxBotMessages] at h
    cases hbm : s.botMessages with
    | nil => exact absurd hbm hne
    | cons a l => simp


/-- Witness for C10 on a full ten-message buffer. -/
theorem bot_messages_circular_buffer_witness :
    (trackBotMessage sTenMessages 42).botMessages = [1, 2, 3, 4, 5, 6, 7, 8, 9, 42] := by
  have h := bot_messages_circular_buffer.2 sTenMessages 42 (by decide)
  simpa [sTenMessages, MusicQueue.initial] using h

/-- Every candidate weight is at least 1 (the clamp's lower bound). -/
theorem songWeight_pos (c : Candidate) : 1 ≤ songWeight c := le_max_left 1 _

/-- Lookup in a list shifted by a constant. -/
theorem getD_map_add (w : Nat) (l : List Nat) (j : Nat) (h : j < l.length) :
    ((l.map (fun t => w + t)).getD j 0) = w + l.getD j 0 := by
  have h2 : j < (l.map (fun t => w + t)).length := by simpa using h
  rw [List.getD_eq_getElem _ _ h2, List.getD_eq_getElem _ _ h, List.getElem_map]

/-- Running totals preserve length. -/
theorem cumSums_length (ws : List Nat) : (cumSums ws).length = ws.length := by
  induction ws with
  | nil => rfl
  | cons w ws ih => simp [cumSums, ih]

/-- The i-th running total is the sum of the first i+1 weights. -/
theorem cumSums_getD (ws : List Nat) : ∀ i, i < ws.length →
    (cumSums ws).getD i 0 = (ws.take (i + 1)).sum := by
  induction ws with
  | nil => intro i h; simp at h
  | cons w ws ih =>
      intro i h
      cases i with
      | zero => simp [cumSums]
      | succ j =>
          have hj : j < ws.length := by simpa using h
          rw [show cumSums (w :: ws) = w :: (cumSums ws).map (fun t => w + t) from rfl,
            List.getD_cons_succ, getD_map_add w _ j (by rw [cumSums_length]; exact hj),
            ih j hj, List.take_succ_cons, List.sum_cons]

/-- Running totals of natural weights are monotone. -/
theorem cumSums_mono (ws : List Nat) (i j : Nat) (hij : i ≤ j) (hj : j < ws.length) :
    (cumSums ws).getD i 0 ≤ (cumSums ws).getD j 0 := by
  rw [cumSums_getD ws i (lt_of_le_of_lt hij hj), cumSums_getD ws j hj]
  have hsplit : ws.take (j + 1) = ws.take (i + 1) ++ (ws.drop (i + 1)).take (j - i) := by
    rw [← List.take_add]
    congr 1
    omega
  rw [hsplit, List.sum_append]
  exact Nat.le_add_right _ _

/-- With weights at least 1 every running total is positive. -/
theorem cumSums_pos (ws : List Nat) (hw : ∀ w ∈ ws, 1 ≤ w) (i : Nat) (hi : i < ws.length) :
    0 < (cumSums ws).getD i 0 := by
  rw [cumSums_getD ws i hi]
  cases ws with
  | nil => simp at hi
  | cons w ws =>
      rw [List.take_succ_cons, List.sum_cons]
      have := hw w (by simp)
      omega

/-- The last running total is the total weight. -/
theorem cumSums_last (ws : List Nat) (h : ws ≠ []) :
    (cumSums ws).getD (ws.length - 1) 0 = ws.sum := by
  have hpos : 0 < ws.length := List.length_pos.2 h
  rw [cumSums_getD ws _ (by omega), Nat.sub_add_cancel hpos, List.take_length]

/-- The binary-search loop never leaves the right end of its interval. -/
theorem bsLoop_le_right (cum : List Nat) (x : ℚ) :
    ∀ (fuel left right : Nat), left ≤ right → bsLoop cum x fuel left right ≤ right := by
  intro fuel
  induction fuel with
  | zero => intro l r h; simpa [bsLoop] using h
  | succ fuel ih =>
      intro l r h
      simp only [bsLoop]
      by_cases hlt : l < r
      · rw [if_pos hlt]
        by_cases hcmp : ((cum.getD ((l + r) / 2) 0 : Nat) : ℚ) < x
        · rw [if_pos hcmp]
          exact ih _ _ (by omega)
        · rw [if_neg hcmp]
          exact le_trans (ih _ _ (by omega)) (by omega)
      · rw [if_neg hlt]
        exact h

/-- Correctness of the binary-search loop: on a monotone cumulative array it finds
the least index whose cumulative weight is at least the drawn value. -/
theorem bsLoop_spec (cum : List Nat) (x : ℚ)
    (mono : ∀ i j, i ≤ j → j < cum.length → cum.getD i 0 ≤ cum.getD j 0) :
    ∀ (fuel left right : Nat), right < cum.length → left ≤ right → right - left < fuel →
      x ≤ ((cum.getD right 0 : Nat) : ℚ) → (∀ j < left, ((cum.getD j 0 : Nat) : ℚ) < x) →
      left ≤ bsLoop cum x fuel left right ∧ bsLoop cum x fuel left right ≤ right ∧
      x ≤ ((cum.getD (bsLoop cum x fuel left right) 0 : Nat) : ℚ) ∧
      (∀ j < bsLoop cum x fuel left right, ((cum.getD j 0 : Nat) : ℚ) < x) := by
  intro fuel
  induction fuel with
  | zero => intro l r _ hlr hfuel _ _; omega
  | succ fuel ih =>
      intro l r hrlen hlr hfuel hub hlb
      simp only [bsLoop]
      by_cases hlt : l < r
      · rw [if_pos hlt]
        by_cases hcmp : ((cum.getD ((l + r) / 2) 0 : Nat) : ℚ) < x
        · rw [if_pos hcmp]
          have hlb2 : ∀ j < (l + r) / 2 + 1, ((cum.getD j 0 : Nat) : ℚ) < x := by
            intro j hj
            have hmono : cum.getD j 0 ≤ cum.getD ((l + r) / 2) 0 :=
              mono j _ (by omega) (by omega)
            exact lt_of_le_of_lt (by exact_mod_cast hmono) hcmp
          have h := ih ((l + r) / 2 + 1) r hrlen (by omega) (by omega) hub hlb2
          exact ⟨by omega, h.2.1, h.2.2.1, h.2.2.2⟩
        · rw [if_neg hcmp]
          have h := ih l ((l + r) / 2) (by omega) (by omega) (by omega) (not_lt.1 hcmp) hlb
          exact ⟨h.1, by omega, h.2.2.1, h.2.2.2⟩
      · rw [if_neg hlt]
        have hleq : l = r := by omega
        subst hleq
        exact ⟨le_refl l, le_refl l, hub, hlb⟩

/-- The flatMap-expanded array has one slot per unit of weight. -/
theorem flatMap_replicate_length (pool : List Candidate) :
    (pool.flatMap (fun c => List.replicate (songWeight c) c)).length =
      (pool.map songWeight).sum := by
  induction pool with
  | nil => rfl
  | cons c rest ih => simp [List.flatMap_cons, ih]

/-- Indexing the flatMap-expanded array at slot k yields the candidate whose
cumulative-weight interval contains k. -/
theorem flatMap_replicate_get (pool : List Candidate) : ∀ (k : Nat),
    k < (pool.map songWeight).sum →
    ∃ i, i < pool.length ∧
      (pool.flatMap (fun c => List.replicate (songWeight c) c)).get? k = pool.get? i ∧
      k < (cumSums (pool.map songWeight)).getD i 0 ∧
      ∀ j < i, (cumSums (pool.map songWeight)).getD j 0 ≤ k := by
  induction pool with
  | nil => intro k h; simp at h
  | cons c rest ih =>
      intro k h
      by_cases hk : k < songWeight c
      · refine ⟨0, by simp, ?_, ?_, by intro j hj; omega⟩
        · rw [List.flatMap_cons, List.get?_append (by simpa using hk)]
          simp [List.get?_eq_getElem?, List.getElem?_replicate, hk]
        · rw [show (((c :: rest).map songWeight)) = songWeight c :: rest.map songWeight
            from rfl]
          rw [show cumSums (songWeight c :: rest.map songWeight) =
            songWeight c :: (cumSums (rest.map songWeight)).map (fun t => songWeight c + t)
            from rfl]
          simpa using hk
      · push_neg at hk
        have hsum : k - songWeight c < (rest.map songWeight).sum := by
          rw [List.map_cons, List.sum_cons] at h
          omega
        obtain ⟨i, hi, hget, hub, hlb⟩ := ih (k - songWeight c) hsum
        refine ⟨i + 1, by simpa using hi, ?_, ?_, ?_⟩
        · rw [List.flatMap_cons, List.get?_append_right (by simpa using hk)]
          simpa using hget
        · rw [List.map_cons,
            show cumSums (songWeight c :: rest.map songWeight) =
              songWeight c :: (cumSums (rest.map songWeight)).map (fun t => songWeight c + t)
              from rfl,
            List.getD_cons_succ,
            getD_map_add _ _ i (by rw [cumSums_length]; simpa using hi)]
          omega
        · intro j hj
          cases j with
          | zero =>
              rw [List.map_cons,
                show cumSums (songWeight c :: rest.map songWeight) =
                  songWeight c ::
                    (cumSums (rest.map songWeight)).map (fun t => songWeight c + t)
                  from rfl,
                List.getD_cons_zero]
              exact hk
          | succ j2 =>
              rw [List.map_cons,
                show cumSums (songWeight c :: rest.map songWeight) =
                  songWeight c ::
                    (cumSums (rest.map songWeight)).map (fun t => songWeight c + t)
                  from rfl,
                List.getD_cons_succ,
                getD_map_add _ _ j2 (by rw [cumSums_length]; simp at hi ⊢; omega)]
              have := hlb j2 (by omega)
              omega

/-- A non-empty pool has positive total weight. -/
theorem weights_sum_pos (pool : List Candidate) (h : pool ≠ []) :
    1 ≤ (pool.map songWeight).sum := by
  cases pool with
  | nil => simp at h
  | cons c rest =>
      rw [List.map_cons, List.sum_cons]
      have := songWeight_pos c
      omega

/-- For a non-negative draw value that is not a positive integer, comparing against
a positive integer threshold agrees between the real comparison and the floored
integer comparison. -/
theorem le_iff_floor_lt (x : ℚ) (c : Nat) (hx : 0 ≤ x)
    (hni : ∀ k : Nat, 0 < k → x ≠ (k : ℚ)) (hc : 0 < c) :
    x ≤ (c : ℚ) ↔ Int.toNat ⌊x⌋ < c := by
  have hfl : (0 : ℤ) ≤ ⌊x⌋ := Int.floor_nonneg.2 hx
  have hcast : ((Int.toNat ⌊x⌋ : Nat) : ℚ) = ((⌊x⌋ : ℤ) : ℚ) := by
    exact_mod_cast congrArg (fun z : ℤ => (z : ℚ)) (Int.toNat_of_nonneg hfl)
  constructor
  · intro hxc
    by_contra hcon
    push_neg at hcon
    have h1 : ((Int.toNat ⌊x⌋ : Nat) : ℚ) ≤ x := by
      rw [hcast]
      exact Int.floor_le x
    have h2 : (c : ℚ) ≤ x := le_trans (by exact_mod_cast hcon) h1
    exact hni c hc (le_antisymm hxc h2)
  · intro hlt
    have h1 : x < ((⌊x⌋ : ℤ) : ℚ) + 1 := Int.lt_floor_add_one x
    have h2 : Int.toNat ⌊x⌋ + 1 ≤ c := hlt
    have h3 : ((Int.toNat ⌊x⌋ : Nat) : ℚ) + 1 ≤ (c : ℚ) := by exact_mod_cast h2
    rw [hcast] at h3
    linarith

/-- The optimised selection returns the candidate at the least index whose
cumulative weight reaches the drawn value. -/
theorem selectWeightedNew_spec (pool : List Candidate) (r : ℚ)
    (hpool : pool ≠ []) (h0 : 0 ≤ r) (h1 : r < 1) :
    ∃ i, selectWeightedNew pool r = pool.get? i ∧ i < pool.length ∧
      r * (((pool.map songWeight).sum : Nat) : ℚ) ≤
        (((cumSums (pool.map songWeight)).getD i 0 : Nat) : ℚ) ∧
      ∀ j < i, (((cumSums (pool.map songWeight)).getD j 0 : Nat) : ℚ) <
        r * (((pool.map songWeight).sum : Nat) : ℚ) := by
  have hplen : 0 < pool.length := List.length_pos.2 hpool
  have hlen : (cumSums (pool.map songWeight)).length = pool.length := by
    rw [cumSums_length, List.length_map]
  have hwsne : pool.map songWeight ≠ [] := by
    simpa using hpool
  have hW1 : 1 ≤ (pool.map songWeight).sum := weights_sum_pos pool hpool
  have hWpos : (0 : ℚ) < (((pool.map songWeight).sum : Nat) : ℚ) := by exact_mod_cast hW1
  have hxW : r * (((pool.map songWeight).sum : Nat) : ℚ) <
      (((pool.map songWeight).sum : Nat) : ℚ) := by
    calc r * (((pool.map songWeight).sum : Nat) : ℚ) <
        1 * (((pool.map songWeight).sum : Nat) : ℚ) :=
          mul_lt_mul_of_pos_right h1 hWpos
      _ = (((pool.map songWeight).sum : Nat) : ℚ) := one_mul _
  have mono : ∀ i j, i ≤ j → j < (cumSums (pool.map songWeight)).length →
      (cumSums (pool.map songWeight)).getD i 0 ≤ (cumSums (pool.map songWeight)).getD j 0 := by
    intro i j hij hj
    rw [cumSums_length] at hj
    exact cumSums_mono _ i j hij hj
  have hub : r * (((pool.map songWeight).sum : Nat) : ℚ) ≤
      (((cumSums (pool.map songWeight)).getD
        ((cumSums (pool.map songWeight)).length - 1) 0 : Nat) : ℚ) := by
    rw [cumSums_length, cumSums_last _ hwsne]
    exact le_of_lt hxW
  have hspec := bsLoop_spec (cumSums (pool.map songWeight))
    (r * (((pool.map songWeight).sum : Nat) : ℚ)) mono
    (cumSums (pool.map songWeight)).length 0 ((cumSums (pool.map songWeight)).length - 1)
    (by omega) (by omega) (by omega) hub (by intro j hj; omega)
  exact ⟨_, rfl, by omega, hspec.2.2.1, hspec.2.2.2⟩

/-- C4 (amended): for every pool and every draw r in the unit interval such that
r times the total weight is not a positive integer, the cumulative-weight binary
search of the newer playRadioSong picks exactly the candidate the older flatMap
expansion picks; the two can differ only at the finitely many boundary draws
(see the counterexample), so each candidate keeps probability weight over total. -/
theorem weighted_selection_refinement (pool : List Candidate) (r : ℚ)
    (h0 : 0 ≤ r) (h1 : r < 1)
    (hb : ∀ k : Nat, 0 < k →
      r * (((pool.map songWeight).sum : Nat) : ℚ) ≠ (k : ℚ)) :
    selectWeightedNew pool r = selectWeightedOld pool r := by
  by_cases hpool : pool = []
  · subst hpool
    simp [selectWeightedNew, selectWeightedOld, cumSums, bsLoop]
  · have hx0 : 0 ≤ r * (((pool.map songWeight).sum : Nat) : ℚ) :=
      mul_nonneg h0 (Nat.cast_nonneg _)
    have hW1 : 1 ≤ (pool.map songWeight).sum := weights_sum_pos pool hpool
    have hWpos : (0 : ℚ) < (((pool.map songWeight).sum : Nat) : ℚ) := by exact_mod_cast hW1
    have hxW : r * (((pool.map songWeight).sum : Nat) : ℚ) <
        (((pool.map songWeight).sum : Nat) : ℚ) := by
      calc r * (((pool.map songWeight).sum : Nat) : ℚ) <
          1 * (((pool.map songWeight).sum : Nat) : ℚ) :=
            mul_lt_mul_of_pos_right h1 hWpos
        _ = _ := one_mul _
    have hkx : ((Int.toNat ⌊r * (((pool.map songWeight).sum : Nat) : ℚ)⌋ : Nat) : ℚ) ≤
        r * (((pool.map songWeight).sum : Nat) : ℚ) := by
      have hfl : (0 : ℤ) ≤ ⌊r * (((pool.map songWeight).sum : Nat) : ℚ)⌋ :=
        Int.floor_nonneg.2 hx0
      calc ((Int.toNat ⌊r * (((pool.map songWeight).sum : Nat) : ℚ)⌋ : Nat) : ℚ)
          = ((⌊r * (((pool.map songWeight).sum : Nat) : ℚ)⌋ : ℤ) : ℚ) := by
            exact_mod_cast congrArg (fun z : ℤ => (z : ℚ)) (Int.toNat_of_nonneg hfl)
        _ ≤ _ := Int.floor_le _
    have hkW : Int.toNat ⌊r * (((pool.map songWeight).sum : Nat) : ℚ)⌋ <
        (pool.map songWeight).sum := by
      have := lt_of_le_of_lt hkx hxW
      exact_mod_cast this
    obtain ⟨iO, hiO, hget, hubO, hlbO⟩ :=
      flatMap_replicate_get pool (Int.toNat ⌊r * (((pool.map songWeight).sum : Nat) : ℚ)⌋) hkW
    obtain ⟨iN, hgetN, hiN, hubN, hlbN⟩ := selectWeightedNew_spec pool r hpool h0 h1
    have hw1 : ∀ w ∈ pool.map songWeight, 1 ≤ w := by
      intro w hw
      obtain ⟨c, _, rfl⟩ := List.mem_map.1 hw
      exact songWeight_pos c
    have hpos : ∀ j, j < pool.length → 0 < (cumSums (pool.map songWeight)).getD j 0 := by
      intro j hj
      exact cumSums_pos _ hw1 j (by rw [List.length_map]; exact hj)
    have hub2 : r * (((pool.map songWeight).sum : Nat) : ℚ) ≤
        (((cumSums (pool.map songWeight)).getD iO 0 : Nat) : ℚ) := by
      have := (le_iff_floor_lt (r * (((pool.map songWeight).sum : Nat) : ℚ))
        ((cumSums (pool.map songWeight)).getD iO 0) hx0 hb (hpos iO hiO)).2 hubO
      exact_mod_cast this
    have hlb2 : ∀ j < iO, (((cumSums (pool.map songWeight)).getD j 0 : Nat) : ℚ) <
        r * (((pool.map songWeight).sum : Nat) : ℚ) := by
      intro j hj
      have hcle := hlbO j hj
      have hjlen : j < pool.length := lt_trans hj hiO
      have hnot : ¬ (r * (((pool.map songWeight).sum : Nat) : ℚ) ≤
          (((cumSums (pool.map songWeight)).getD j 0 : Nat) : ℚ)) := by
        intro hle
        exact not_lt.2 hcle
          ((le_iff_floor_lt (r * (((pool.map songWeight).sum : Nat) : ℚ))
            ((cumSums (pool.map songWeight)).getD j 0) hx0 hb (hpos j hjlen)).1 hle)
      exact not_le.1 hnot
    have hNO : iN = iO := by
      rcases lt_trichotomy iN iO with h | h | h
      · exact absurd hubN (not_le.2 (hlb2 iN h))
      · exact h
      · exact absurd hub2 (not_le.2 (hlbN iO h))
    have hold : selectWeightedOld pool r =
        (pool.flatMap (fun c => List.replicate (songWeight c) c)).get?
          (Int.toNat ⌊r * (((pool.map songWeight).sum : Nat) : ℚ)⌋) := by
      simp only [selectWeightedOld, flatMap_replicate_length]
    rw [hgetN, hNO, hold, hget]

/-- The loop is the identity on a collapsed interval. -/
theorem bsLoop_self (cum : List Nat) (x : ℚ) : ∀ (fuel l : Nat), bsLoop cum x fuel l l = l := by
  intro fuel l
  cases fuel with
  | zero => rfl
  | succ fuel => simp [bsLoop]



/-- C4 counterexample: on a two-candidate pool with weights 2 and 2, the boundary
draw one half makes the binary-search version pick the first candidate while the
flatMap version picks the second, so the two are not pointwise equal on every draw. -/
theorem weighted_selection_boundary_differs :
    selectWeightedNew [candU1a, candU1b] (1/2) = some candU1a ∧
    selectWeightedOld [candU1a, candU1b] (1/2) = some candU1b ∧
    candU1a ≠ candU1b := by
  have hbs : bsLoop [2, 4] (2 : ℚ) 2 0 1 = 0 := by
    show (if 0 < 1 then
            if ((([2, 4] : List Nat).getD ((0 + 1) / 2) 0 : Nat) : ℚ) < 2 then
              bsLoop [2, 4] 2 1 ((0 + 1) / 2 + 1) 1
            else bsLoop [2, 4] 2 1 0 ((0 + 1) / 2)
          else 0) = 0
    norm_num
    exact bsLoop_self [2, 4] 2 1 0
  refine ⟨?_, ?_, by decide⟩
  · have hw : [candU1a, candU1b].map songWeight = [2, 2] := by decide
    simp only [selectWeightedNew, hw]
    rw [show cumSums [2, 2] = [2, 4] from by decide]
    rw [show (1/2 : ℚ) * ((([2, 2] : List Nat).sum : Nat) : ℚ) = 2 from by norm_num]
    rw [show ([2, 4] : List Nat).length = 2 from rfl]
    rw [show (2 : Nat) - 1 = 1 from rfl]
    rw [hbs]
    rfl
  · have hexp : [candU1a, candU1b].flatMap (fun c => List.replicate (songWeight c) c) =
        [candU1a, candU1a, candU1b, candU1b] := by decide
    simp only [selectWeightedOld, hexp]
    rw [show (([candU1a, candU1a, candU1b, candU1b] : List Candidate).length : ℚ) = 4
      from by rfl]
    rw [show Int.toNat ⌊(1/2 : ℚ) * 4⌋ = 2 from by
      rw [show ⌊(1/2 : ℚ) * 4⌋ = 2 from by norm_num]
      rfl]
    rfl

/-- Witness for C4 at a non-boundary draw. -/
theorem weighted_selection_refinement_witness :
    selectWeightedNew [candU1a, candU1b] (1/8) = selectWeightedOld [candU1a, candU1b] (1/8) := by
  apply weighted_selection_refinement
  · norm_num
  · norm_num
  · intro k hk heq
    rw [show ([candU1a, candU1b].map songWeight).sum = 4 from by decide] at heq
    have hk1 : (1 : ℚ) ≤ (k : ℚ) := by exact_mod_cast hk
    norm_num at heq
    linarith

/-- On a non-empty pool the optimised weighted selection always returns a candidate
from the pool. -/
theorem selectWeightedNew_isSome (pool : List Candidate) (r : ℚ) (hpool : pool ≠ []) :
    ∃ c ∈ pool, selectWeightedNew pool r = some c := by
  have hplen : 0 < pool.length := List.length_pos.2 hpool
  have hlen : (cumSums (pool.map songWeight)).length = pool.length := by
    rw [cumSums_length, List.length_map]
  have hidx : bsLoop (cumSums (pool.map songWeight))
      (r * (((pool.map songWeight).sum : Nat) : ℚ))
      (cumSums (pool.map songWeight)).length 0 ((cumSums (pool.map songWeight)).length - 1) <
      pool.length := by
    have := bsLoop_le_right (cumSums (pool.map songWeight))
      (r * (((pool.map songWeight).sum : Nat) : ℚ))
      (cumSums (pool.map songWeight)).length 0 ((cumSums (pool.map songWeight)).length - 1)
      (by omega)
    omega
  exact ⟨pool.get ⟨_, hidx⟩, List.get_mem pool _ hidx, List.get?_eq_get hidx⟩

/-- With draws in the unit interval, the selection step always returns a candidate
from its pool. -/
theorem pickSong_isSome (pool : List Candidate) (n : Nat) (jc : Bool) (rB rP : ℚ)
    (hpool : pool ≠ []) (h0 : 0 ≤ rP) (h1 : rP < 1) :
    ∃ c ∈ pool, pickSong pool n jc rB rP = some c := by
  have hplen : 0 < pool.length := List.length_pos.2 hpool
  simp only [pickSong]
  split
  · have hfl : (0 : ℤ) ≤ ⌊rP * (pool.length : ℚ)⌋ :=
      Int.floor_nonneg.2 (mul_nonneg h0 (Nat.cast_nonneg _))
    have hk : Int.toNat ⌊rP * (pool.length : ℚ)⌋ < pool.length := by
      rw [Int.toNat_lt hfl]
      apply Int.floor_lt.2
      push_cast
      calc rP * (pool.length : ℚ) < 1 * (pool.length : ℚ) :=
            mul_lt_mul_of_pos_right h1 (by exact_mod_cast hplen)
        _ = (pool.length : ℚ) := one_mul _
    exact ⟨pool.get ⟨_, hk⟩, List.get_mem pool _ hk, List.get?_eq_get hk⟩
  · exact selectWeightedNew_isSome pool rP hpool

/-- Whatever the selection step returns was a member of its pool. -/
theorem pickSong_mem (pool : List Candidate) (n : Nat) (jc : Bool) (rB rP : ℚ)
    (c : Candidate) (h : pickSong pool n jc rB rP = some c) : c ∈ pool := by
  simp only [pickSong] at h
  split at h
  · exact List.get?_mem h
  · simp only [selectWeightedNew] at h
    exact List.get?_mem h

/-- The artist filter only removes candidates. -/
theorem artistGate_sub (songs availableSongs : List Candidate) (ra : List String)
    (c : Candidate) (h : c ∈ artistGate songs availableSongs ra) : c ∈ availableSongs := by
  simp only [artistGate] at h
  split at h
  · split at h
    · exact List.mem_of_mem_filter h
    · exact h
  · exact h

/-- The trim fallback never returns an empty selection pool when the library is
non-empty. -/
theorem trimIfEmpty_pool_nonempty (s : MusicQueue) (songs diverseSongs : List Candidate)
    (hs : songs ≠ []) : (trimIfEmpty s songs diverseSongs).2.1 ≠ [] := by
  simp only [trimIfEmpty]
  split
  · split
    · exact hs
    · next h =>
        intro hnil
        simp only at hnil
        rw [hnil] at h
        simp at h
  · next h =>
      intro hnil
      simp only at hnil
      rw [hnil] at h
      simp at h

/-- When the returned flag is false the trim fallback did nothing. -/
theorem trimIfEmpty_not_cleared (s : MusicQueue) (songs diverseSongs : List Candidate)
    (h : (trimIfEmpty s songs diverseSongs).2.2 = false) :
    trimIfEmpty s songs diverseSongs = (s, diverseSongs, false) := by
  by_cases hd : diverseSongs.length = 0
  · exfalso
    simp only [trimIfEmpty, if_pos hd] at h
    split at h <;> simp at h
  · simp only [trimIfEmpty, if_neg hd]

/-- Pushing onto a bounded history leaves at most cap entries. -/
theorem pushTrim_length_le (l : List String) (x : String) (cap : Nat) :
    (pushTrim l x cap).length ≤ cap := by
  simp only [pushTrim, List.length_drop, List.length_append]
  omega

/-- The chosen candidate of a selection call is the selection step's result. -/
theorem radioSelect_chosen (s : MusicQueue) (songs : List Candidate) (rB rP : ℚ) :
    (radioSelect s songs rB rP).2.2 =
      pickSong (trimIfEmpty s songs (artistGate songs
          (filterNotRecent songs s.recentlyPlayed) s.recentArtists)).2.1 songs.length
        (trimIfEmpty s songs (artistGate songs
          (filterNotRecent songs s.recentlyPlayed) s.recentArtists)).2.2 rB rP := by
  simp only [radioSelect]
  rcases h : pickSong (trimIfEmpty s songs (artistGate songs
      (filterNotRecent songs s.recentlyPlayed) s.recentArtists)).2.1 songs.length
      (trimIfEmpty s songs (artistGate songs
        (filterNotRecent songs s.recentlyPlayed) s.recentArtists)).2.2 rB rP with _ | c
  · simp [h]
  · simp [h]

/-- The cleared flag of a selection call is the trim fallback's flag. -/
theorem radioSelect_flag (s : MusicQueue) (songs : List Candidate) (rB rP : ℚ) :
    (radioSelect s songs rB rP).2.1 =
      (trimIfEmpty s songs (artistGate songs
        (filterNotRecent songs s.recentlyPlayed) s.recentArtists)).2.2 := by
  simp only [radioSelect]
  rcases h : pickSong (trimIfEmpty s songs (artistGate songs
      (filterNotRecent songs s.recentlyPlayed) s.recentArtists)).2.1 songs.length
      (trimIfEmpty s songs (artistGate songs
        (filterNotRecent songs s.recentlyPlayed) s.recentArtists)).2.2 rB rP with _ | c
  · simp [h]
  · simp [h]

/-- The history lists after a successful selection are the bounded pushes of the
chosen url and artist. -/
theorem radioSelect_some_state (s : MusicQueue) (songs : List Candidate) (rB rP : ℚ)
    (c : Candidate)
    (hpick : pickSong (trimIfEmpty s songs (artistGate songs
        (filterNotRecent songs s.recentlyPlayed) s.recentArtists)).2.1 songs.length
      (trimIfEmpty s songs (artistGate songs
        (filterNotRecent songs s.recentlyPlayed) s.recentArtists)).2.2 rB rP = some c) :
    (radioSelect s songs rB rP).1.recentlyPlayed =
      pushTrim (trimIfEmpty s songs (artistGate songs
        (filterNotRecent songs s.recentlyPlayed) s.recentArtists)).1.recentlyPlayed
        c.song_url (min (songs.length * 6 / 10) 50) ∧
    (radioSelect s songs rB rP).1.recentArtists =
      (if c.song_artist ≠ "" ∧ c.song_artist ≠ "Unknown" then
        pushTrim (trimIfEmpty s songs (artistGate songs
          (filterNotRecent songs s.recentlyPlayed) s.recentArtists)).1.recentArtists
          c.song_artist (min (songs.length * 15 / 100) 10)
      else (trimIfEmpty s songs (artistGate songs
        (filterNotRecent songs s.recentlyPlayed) s.recentArtists)).1.recentArtists) := by
  simp only [radioSelect, hpick]
  exact ⟨trivial, trivial⟩

/-- C6 (amended): after every radio selection from a non-empty pool with draws in
the unit interval, the song history length is at most min(floor(P*0.6), 50); the
artist history length is at most min(floor(P*0.15), 10) whenever the selected
track's artist is truthy and not Unknown - for an Unknown-artist selection the
artist history is left untouched and may exceed the recomputed cap (see the
counterexample). -/
theorem history_caps (s : MusicQueue) (songs : List Candidate) (rB rP : ℚ)
    (hne : songs ≠ []) (h0 : 0 ≤ rP) (h1 : rP < 1) :
    ∃ c, (radioSelect s songs rB rP).2.2 = some c ∧
      (radioSelect s songs rB rP).1.recentlyPlayed.length ≤ min (songs.length * 6 / 10) 50 ∧
      ((c.song_artist ≠ "" ∧ c.song_artist ≠ "Unknown") →
        (radioSelect s songs rB rP).1.recentArtists.length ≤
          min (songs.length * 15 / 100) 10) := by
  obtain ⟨c, hcmem, hpick⟩ := pickSong_isSome
    (trimIfEmpty s songs (artistGate songs
      (filterNotRecent songs s.recentlyPlayed) s.recentArtists)).2.1 songs.length
    (trimIfEmpty s songs (artistGate songs
      (filterNotRecent songs s.recentlyPlayed) s.recentArtists)).2.2 rB rP
    (trimIfEmpty_pool_nonempty s songs _ hne) h0 h1
  obtain ⟨hrp, hra⟩ := radioSelect_some_state s songs rB rP c hpick
  refine ⟨c, ?_, ?_, ?_⟩
  · rw [radioSelect_chosen]
    exact hpick
  · rw [hrp]
    exact pushTrim_length_le _ _ _
  · intro hart
    rw [hra, if_pos hart]
    exact pushTrim_length_le _ _ _

/-- C7: in a selection call on a pool of at least two candidates in which no
history trim or clear was triggered, the chosen track's url is not in the song
history as it stood at the start of the call, on both selection branches. -/
theorem no_immediate_repeat (s : MusicQueue) (songs : List Candidate) (rB rP : ℚ)
    (hlen : 2 ≤ songs.length)
    (hnc : (radioSelect s songs rB rP).2.1 = false) :
    ∀ c, (radioSelect s songs rB rP).2.2 = some c → c.song_url ∉ s.recentlyPlayed := by
  intro c hc
  rw [radioSelect_flag] at hnc
  have ht := trimIfEmpty_not_cleared s songs _ hnc
  rw [radioSelect_chosen, ht] at hc
  simp only at hc
  have hmem := pickSong_mem _ _ _ _ _ _ hc
  have hmem2 := artistGate_sub _ _ _ _ hmem
  simp only [filterNotRecent, List.mem_filter] at hmem2
  have := hmem2.2
  simpa using this

/-- C9: with active users but an empty candidate pool, the radio selection call
sends exactly one soft notice, plays nothing, leaves the queue unchanged (while
disabling radio mode), and the session still accepts explicit-queue pushes
afterwards, appending normally at back or front. -/
theorem empty_pool_soft (s : MusicQueue) (userIds : List String)
    (songs : List Candidate) (rB rP : ℚ) (hu : userIds ≠ []) (hs : songs = []) :
    (playRadioSong s userIds songs rB rP).2.1.length = 1 ∧
    (playRadioSong s userIds songs rB rP).2.2 = none ∧
    (playRadioSong s userIds songs rB rP).1.queue = s.queue ∧
    (playRadioSong s userIds songs rB rP).1.radioMode = false ∧
    (∀ song : Song,
      (enqueue (playRadioSong s userIds songs rB rP).1 song false).queue =
        (playRadioSong s userIds songs rB rP).1.queue ++ [song] ∧
      (enqueue (playRadioSong s userIds songs rB rP).1 song true).queue =
        song :: (playRadioSong s userIds songs rB rP).1.queue) := by
  subst hs
  simp only [playRadioSong]
  rw [if_neg (by simpa using hu), if_pos (by rfl)]
  exact ⟨rfl, rfl, rfl, rfl, fun song => ⟨by simp [enqueue], by simp [enqueue]⟩⟩

/-- Witness for C9 on a concrete session. -/
theorem empty_pool_soft_witness :
    (playRadioSong MusicQueue.initial ["u1"] [] 0 0).2.1.length = 1 ∧
    (playRadioSong MusicQueue.initial ["u1"] [] 0 0).2.2 = none ∧
    (enqueue (playRadioSong MusicQueue.initial ["u1"] [] 0 0).1 tSong false).queue =
      (playRadioSong MusicQueue.initial ["u1"] [] 0 0).1.queue ++ [tSong] := by
  have h := empty_pool_soft MusicQueue.initial ["u1"] [] 0 0 (by simp) rfl
  exact ⟨h.1, h.2.1, (h.2.2.2.2 tSong).1⟩



/-- With empty history no candidate is filtered. -/
theorem filterAB :
    filterNotRecent [candA310, candB11] MusicQueue.initial.recentlyPlayed =
      [candA310, candB11] := by decide

/-- A pool of two stays below the artist-filter threshold of ten. -/
theorem gateAB :
    artistGate [candA310, candB11] [candA310, candB11] MusicQueue.initial.recentArtists =
      [candA310, candB11] := by
  simp only [artistGate]
  rw [if_neg (by norm_num [max_def])]

/-- A non-empty filtered pool triggers no trim. -/
theorem trimAB :
    trimIfEmpty MusicQueue.initial [candA310, candB11] [candA310, candB11] =
      (MusicQueue.initial, [candA310, candB11], false) := by
  simp [trimIfEmpty]

/-- On the two-candidate scenario pool, any draw landing in the top-weight
candidate's cumulative span selects candidate a. -/
theorem radioSelect_ab (rP : ℚ) (h0 : 0 ≤ rP) (h5 : rP * 7 ≤ 5) :
    (radioSelect MusicQueue.initial [candA310, candB11] 0 rP).2.2 = some candA310 := by
  have h1 : rP < 1 := by nlinarith
  rw [radioSelect_chosen, filterAB, gateAB, trimAB]
  simp only [pickSong]
  rw [if_neg (by norm_num)]
  obtain ⟨i, heq, hi, hub, hlb⟩ :=
    selectWeightedNew_spec [candA310, candB11] rP (by decide) h0 h1
  have hi0 : i = 0 := by
    by_contra hne0
    have hl := hlb 0 (by omega)
    rw [show (cumSums ([candA310, candB11].map songWeight)).getD 0 0 = 5 from by decide,
        show ([candA310, candB11].map songWeight).sum = 7 from by decide] at hl
    push_cast at hl
    linarith
  rw [heq, hi0]
  rfl

/-- C5: in the basic radio-rotation scenario the log-scaled clamped weights are 5
for a and 2 for b, so weight(a) is at least weight(b), and with the weighted branch
forced, every draw landing in the highest-cumulative-weight candidate's span (that
is, r times the total weight 7 at most 5) makes the selection return a. -/
theorem radio_rotation_scenario :
    songWeight candA310 = 5 ∧ songWeight candB11 = 2 ∧
    songWeight candB11 ≤ songWeight candA310 ∧
    (∀ rP : ℚ, 0 ≤ rP → rP * 7 ≤ 5 →
      (radioSelect MusicQueue.initial [candA310, candB11] 0 rP).2.2 = some candA310) :=
  ⟨by decide, by decide, by decide, fun rP h0 h5 => radioSelect_ab rP h0 h5⟩

/-- Witness for C5 at the draw one half. -/
theorem radio_rotation_scenario_witness :
    (radioSelect MusicQueue.initial [candA310, candB11] 0 (1/2)).2.2 = some candA310 :=
  radio_rotation_scenario.2.2.2 (1/2) (by norm_num) (by norm_num)

/-- The scenario selection triggers no trim or clear. -/
theorem flagAB : (radioSelect MusicQueue.initial [candA310, candB11] 0 (1/2)).2.1 = false := by
  rw [radioSelect_flag, filterAB, gateAB, trimAB]

/-- Witness for C7 on a concrete pool and draw. -/
theorem no_immediate_repeat_witness :
    candA310.song_url ∉ MusicQueue.initial.recentlyPlayed :=
  no_immediate_repeat MusicQueue.initial [candA310, candB11] 0 (1/2) (by decide) flagAB
    candA310 (radioSelect_ab (1/2) (by norm_num) (by norm_num))

/-- Witness for C6 on a concrete two-candidate pool. -/
theorem history_caps_witness :
    ∃ c, (radioSelect MusicQueue.initial [candA310, candB11] 0 0).2.2 = some c ∧
      (radioSelect MusicQueue.initial [candA310, candB11] 0 0).1.recentlyPlayed.length ≤
        min (([candA310, candB11] : List Candidate).length * 6 / 10) 50 ∧
      ((c.song_artist ≠ "" ∧ c.song_artist ≠ "Unknown") →
        (radioSelect MusicQueue.initial [candA310, candB11] 0 0).1.recentArtists.length ≤
          min (([candA310, candB11] : List Candidate).length * 15 / 100) 10) :=
  history_caps MusicQueue.initial [candA310, candB11] 0 0 (by decide) le_rfl (by norm_num)




/-- With empty song history the seven-candidate pool is unfiltered. -/
theorem filterC6 : filterNotRecent c6pool sStaleArtists.recentlyPlayed = c6pool := by decide

/-- A pool of seven stays below the artist-filter threshold of ten. -/
theorem gateC6 : artistGate c6pool c6pool sStaleArtists.recentArtists = c6pool := by
  simp only [artistGate]
  rw [if_neg (by norm_num [c6pool, max_def])]

/-- The seven-candidate pool triggers no trim. -/
theorem trimC6 : trimIfEmpty sStaleArtists c6pool c6pool = (sStaleArtists, c6pool, false) := by
  simp [trimIfEmpty, c6pool]

/-- The stale-artist scenario selects the first Unknown-artist candidate. -/
theorem chosenC6 : (radioSelect sStaleArtists c6pool 1 0).2.2 = some candUnknown1 := by
  rw [radioSelect_chosen, filterC6, gateC6, trimC6]
  simp only [pickSong]
  rw [if_neg (by norm_num)]
  obtain ⟨i, heq, hi, hub, hlb⟩ := selectWeightedNew_spec c6pool 0 (by decide) le_rfl (by norm_num)
  have hi0 : i = 0 := by
    by_contra hne0
    have hl := hlb 0 (by omega)
    rw [zero_mul] at hl
    exact absurd hl (not_lt.2 (Nat.cast_nonneg _))
  rw [heq, hi0]
  rfl

/-- C6 counterexample: selecting an Unknown-artist track from a pool of seven with
two stale artist-history entries leaves the artist history at length 2, above the
recomputed cap min(floor(7*0.15), 10) = 1, refuting the unconditional artist bound. -/
theorem artist_history_cap_violated :
    ¬ ((radioSelect sStaleArtists c6pool 1 0).1.recentArtists.length ≤
        min (c6pool.length * 15 / 100) 10) := by
  have hp : pickSong (trimIfEmpty sStaleArtists c6pool (artistGate c6pool
      (filterNotRecent c6pool sStaleArtists.recentlyPlayed)
      sStaleArtists.recentArtists)).2.1 c6pool.length
      (trimIfEmpty sStaleArtists c6pool (artistGate c6pool
        (filterNotRecent c6pool sStaleArtists.recentlyPlayed)
        sStaleArtists.recentArtists)).2.2 1 0 = some candUnknown1 := by
    rw [← radioSelect_chosen]
    exact chosenC6
  obtain ⟨hrp, hra⟩ := radioSelect_some_state sStaleArtists c6pool 1 0 candUnknown1 hp
  rw [hra, if_neg (by decide), filterC6, gateC6, trimC6]
  decide

end EchosAnvil
